import Mathlib

/-!
Verification of the resize-crop-saliency core of `src/display_picture.py`
(the `crop` function, lines 81-179, and the constants it uses).

Modelling conventions:
* Python `float` arithmetic on aspect ratios is embedded as exact rational
  arithmetic over `ℚ`; Python `int(x)` (truncation toward zero) is `pyInt`.
* An OpenCV image (`np.ndarray` of shape `(h, w, c)`) is the structure
  `Image`: width, height, channel count, element type, and a pixel function.
* `cv2.resize` and the OpenCV saliency detector are external collaborators:
  `cv2resize` models the resize contract (output has exactly the requested
  dimensions, the same channel count and element type, pixels sampled from
  the source); the saliency computation is an oracle parameter of type
  `SalProbe`, where `none` covers both a `success == False` return and a
  raised exception — both leave the offsets untouched in the code, since
  the offset mutation is the final statement of the guarded block.
  OpenCV's own precondition checks (positive requested size, non-empty
  source) are performed explicitly at the call sites inside `crop`,
  mirroring the `cv2.error` they raise.
* Numpy basic slicing `a[y0:y1, x0:x1]` is `npSlice2D`, with numpy's
  clamping rules for out-of-range and negative bounds.
* Exceptions raised by `crop` are the `Except` error cases of `CropErr`:
  `invalidImage` for `ValueError("Invalid image.")`, `zeroDivisionError`
  for the `ZeroDivisionError` of `disp_w / disp_h`, `cv2Error` for errors
  raised inside `cv2.resize`, and `assertionError` for
  `AssertionError("Resizing logic error")`.
-/

/-- Python `int(x)` applied to a real value: truncation toward zero. -/
def pyInt (q : ℚ) : Int := if 0 ≤ q then ⌊q⌋ else ⌈q⌉

/-- Element type of a numpy array (`dtype`); only its identity matters. -/
inductive DType where
  | uint8
  | int32
  | float32
  | float64
  deriving DecidableEq, Repr

/-- A decoded OpenCV image: `np.ndarray` of shape `(h, w, c)` with element
type `dtype`. `px y x ch` is the stored value at row `y`, column `x`,
channel `ch`. -/
structure Image where
  w : Nat
  h : Nat
  c : Nat
  dtype : DType
  px : Nat → Nat → Nat → Nat

/-- `image.size` in numpy: the total number of elements. -/
def Image.size (img : Image) : Nat := img.w * img.h * img.c

/-- Modelled external collaborator `cv2.resize(img, (newW, newH))`: the
output has exactly the requested dimensions, the same channel count and
element type, and pixels sampled from the source (nearest-neighbour
sampling stands in for the interpolation, on which no claim depends).
`crop` performs OpenCV's precondition checks explicitly before calling. -/
def cv2resize (img : Image) (newW newH : Nat) : Image :=
  { w := newW, h := newH, c := img.c, dtype := img.dtype,
    px := fun y x ch => img.px (y * img.h / newH) (x * img.w / newW) ch }

/-- One bound of a numpy basic slice on an axis of length `n`: a negative
index counts from the end, then the bound is clamped into `[0, n]`. -/
def sliceBound (n : Nat) (i : Int) : Nat :=
  if i < 0 then (i + n).toNat else min i.toNat n

/-- Numpy basic slicing `img[y0:y1, x0:x1]`: a view with the same channel
count and element type, empty when the clamped stop is not past the
clamped start. -/
def npSlice2D (img : Image) (y0 y1 x0 x1 : Int) : Image :=
  { w := sliceBound img.w x1 - sliceBound img.w x0,
    h := sliceBound img.h y1 - sliceBound img.h y0,
    c := img.c, dtype := img.dtype,
    px := fun y x ch => img.px (sliceBound img.h y0 + y) (sliceBound img.w x0 + x) ch }

/-- The covering-resize dimensions of `crop` (lines 100-112):
`img_aspect = img_w / img_h`, `disp_aspect = disp_w / disp_h`, branch on
`img_aspect < disp_aspect`, Python `int()` on the float quotient/product.
Returns the `(width, height)` pair passed to `cv2.resize`. -/
def resizeDims (imgW imgH : Nat) (dispW dispH : Int) : Int × Int :=
  if (imgW : ℚ) / (imgH : ℚ) < (dispW : ℚ) / (dispH : ℚ) then
    (dispW, pyInt ((dispW : ℚ) / ((imgW : ℚ) / (imgH : ℚ))))
  else
    (pyInt ((dispH : ℚ) * ((imgW : ℚ) / (imgH : ℚ))), dispH)

/-- The centred crop offsets of `crop` (lines 119-120):
`x_off = int((img_w - disp_w) / 2)`, `y_off = int((img_h - disp_h) / 2)`,
computed on the resized image's dimensions. -/
def centerOffsets (rw rh : Nat) (dispW dispH : Int) : Int × Int :=
  (pyInt (((rw : ℚ) - (dispW : ℚ)) / 2), pyInt (((rh : ℚ) - (dispH : ℚ)) / 2))

/-- A saliency score grid (`saliency_map` before the `uint8` conversion):
a float score at each `(row, column)`. -/
abbrev SalGrid := Nat → Nat → ℚ

/-- The external saliency capability
(`StaticSaliencySpectralResidual.computeSaliency`), as consumed by `crop`:
`none` models `success == False` as well as a raised exception, `some g`
a successful float score grid aligned with the probed image. -/
abbrev SalProbe := Image → Option SalGrid

/-- Numpy `astype("uint8")` on a float value: C-style truncation toward
zero, wrapped modulo 256. -/
def u8 (q : ℚ) : Nat := ((pyInt q) % 256).toNat

/-- `(saliency_map * 255).astype("uint8")` (line 138). -/
def smUint8 (g : SalGrid) : Nat → Nat → Nat :=
  fun y x => u8 (g y x * 255)

/-- `CONVOLUTION_KERNEL_SIZE` (line 22). -/
def CONVOLUTION_KERNEL_SIZE : Nat := 64

/-- `np.max(saliency_map, axis=...)` at one position: the maximum of `f`
over the `n` positions of the perpendicular axis. -/
def axisMax (f : Nat → Nat) (n : Nat) : Nat :=
  (List.range n).foldl (fun a i => max a (f i)) 0

/-- Length of `np.convolve(v, k, "same")` for `len(v) = n` and the
64-sample kernel: `max n 64`. -/
def convSameLen (n : Nat) : Nat := max n CONVOLUTION_KERNEL_SIZE

/-- Entry `t` of `np.convolve(v, np.ones(64)/64, "same")` for `len(v) = n`:
the centred window of the full convolution, i.e. the mean (over 64) of
`v i` for `i` in the clamped window around `t + (min n 64 - 1) / 2`. -/
def convSame (v : Nat → Nat) (n t : Nat) : ℚ :=
  (∑ i in Finset.Icc (t + (min n CONVOLUTION_KERNEL_SIZE - 1) / 2 + 1 - CONVOLUTION_KERNEL_SIZE)
      (min (n - 1) (t + (min n CONVOLUTION_KERNEL_SIZE - 1) / 2)),
    (v i : ℚ)) / (CONVOLUTION_KERNEL_SIZE : ℚ)

/-- `np.argmax` over indices `0, ..., L-1`: the first index attaining the
maximum of `f`. -/
def argmaxIdx (f : Nat → ℚ) (L : Nat) : Nat :=
  (List.range L).foldl (fun a t => if f a < f t then t else a) 0

/-- The saliency-guided offset adjustment of `crop` (lines 140-161): on the
croppable axis (`x_off == 0` selects the vertical branch), collapse the
`uint8` grid by `np.max` across the perpendicular axis, smooth by the
64-sample moving average, take the first argmax as `sal_centre`, and add
the shift `max(min(sal_centre - img_centre, off), -off)` to the nonzero
offset, where `img_centre = int(length / 2)`. -/
def solveShift (sm : Nat → Nat → Nat) (rw rh : Nat) (xOff yOff : Int) : Int × Int :=
  if xOff = 0 then
    (xOff, yOff +
      max (min ((argmaxIdx (convSame (fun y => axisMax (fun x => sm y x) rw) rh)
          (convSameLen rh) : Int) - pyInt ((rh : ℚ) / 2)) yOff) (-yOff))
  else
    (xOff +
      max (min ((argmaxIdx (convSame (fun x => axisMax (fun y => sm y x) rh) rw)
          (convSameLen rw) : Int) - pyInt ((rw : ℚ) / 2)) xOff) (-xOff), yOff)

/-- The resized image `cv2.resize(image, resize)` of line 115. -/
def resizedOf (image : Image) (dispW dispH : Int) : Image :=
  cv2resize image (resizeDims image.w image.h dispW dispH).1.toNat
    (resizeDims image.w image.h dispW dispH).2.toNat

/-- The offsets `crop` finally crops at: the centred offsets, adjusted by
`solveShift` only when `intelligent` is set and the probe succeeds
(lines 130-164). -/
def chosenOffsets (resized : Image) (dispW dispH : Int) (intelligent : Bool)
    (probe : SalProbe) : Int × Int :=
  if intelligent then
    match probe resized with
    | none => centerOffsets resized.w resized.h dispW dispH
    | some g =>
        solveShift (smUint8 g) resized.w resized.h
          (centerOffsets resized.w resized.h dispW dispH).1
          (centerOffsets resized.w resized.h dispW dispH).2
  else centerOffsets resized.w resized.h dispW dispH

/-- The exceptions `crop` can raise, in source order of their raise sites. -/
inductive CropErr where
  | invalidImage
  | zeroDivisionError
  | cv2Error
  | assertionError
  deriving DecidableEq, Repr

/-- The final window extraction and size correction of `crop`
(lines 166-179): slice `[y_off : y_off + disp_h, x_off : x_off + disp_w]`,
then force a `cv2.resize` to `(disp_w, disp_h)` when the sliced dimensions
mismatch; `cv2Error` stands for the errors OpenCV raises on a non-positive
requested size or an empty source. -/
def cropWindow (resized : Image) (off : Int × Int) (dispW dispH : Int) :
    Except CropErr Image :=
  if ((npSlice2D resized off.2 (off.2 + dispH) off.1 (off.1 + dispW)).w : Int) ≠ dispW ∨
      ((npSlice2D resized off.2 (off.2 + dispH) off.1 (off.1 + dispW)).h : Int) ≠ dispH then
    if dispW ≤ 0 ∨ dispH ≤ 0 ∨
        (npSlice2D resized off.2 (off.2 + dispH) off.1 (off.1 + dispW)).size = 0 then
      .error .cv2Error
    else
      .ok (cv2resize (npSlice2D resized off.2 (off.2 + dispH) off.1 (off.1 + dispW))
        dispW.toNat dispH.toNat)
  else .ok (npSlice2D resized off.2 (off.2 + dispH) off.1 (off.1 + dispW))

/-- The `crop` function of `display_picture.py` (lines 81-179): reject an
empty image; `disp_w / disp_h` raises on a zero display height; covering
resize (raising inside `cv2.resize` on a non-positive computed size);
assert that one centred offset is zero; optionally shift the offsets by
saliency; extract and size-correct the window. -/
def crop (image : Image) (dispW dispH : Int) (intelligent : Bool)
    (probe : SalProbe) : Except CropErr Image :=
  if image.size = 0 then .error .invalidImage
  else if dispH = 0 then .error .zeroDivisionError
  else if (resizeDims image.w image.h dispW dispH).1 ≤ 0 ∨
      (resizeDims image.w image.h dispW dispH).2 ≤ 0 then .error .cv2Error
  else if ¬ ((centerOffsets (resizedOf image dispW dispH).w
        (resizedOf image dispW dispH).h dispW dispH).1 = 0 ∨
      (centerOffsets (resizedOf image dispW dispH).w
        (resizedOf image dispW dispH).h dispW dispH).2 = 0) then
    .error .assertionError
  else
    cropWindow (resizedOf image dispW dispH)
      (chosenOffsets (resizedOf image dispW dispH) dispW dispH intelligent probe)
      dispW dispH

/-- The resize-dimension rule as the specification words it ("round" =
round-to-nearest of the real-valued quotient/product), for comparison with
`resizeDims`: `(Tw, round(Tw / source_aspect))` when
`source_aspect < target_aspect`, else `(round(Th * source_aspect), Th)`. -/
def resizeDimsSpec (imgW imgH : Nat) (dispW dispH : Int) : Int × Int :=
  if (imgW : ℚ) / (imgH : ℚ) < (dispW : ℚ) / (dispH : ℚ) then
    (dispW, round ((dispW : ℚ) / ((imgW : ℚ) / (imgH : ℚ))))
  else
    (round ((dispH : ℚ) * ((imgW : ℚ) / (imgH : ℚ))), dispH)

/-- A concrete 1 x 1 color image, for closed instances. -/
def sampleImage : Image :=
  { w := 1, h := 1, c := 3, dtype := DType.uint8, px := fun _ _ _ => 0 }

/-- A concrete 1920 x 1080 color image (Scenario A's source shape). -/
def wideImage : Image :=
  { w := 1920, h := 1080, c := 3, dtype := DType.uint8, px := fun _ _ _ => 7 }

/-- A probe that always reports failure. -/
def noProbe : SalProbe := fun _ => none

/-- A probe that always succeeds with a constant-zero score grid. -/
def zeroProbe : SalProbe := fun _ => some (fun _ _ => 0)

/-! ### Basic facts about `pyInt` -/

theorem pyInt_eq_floor {q : ℚ} (h : 0 ≤ q) : pyInt q = ⌊q⌋ := if_pos h

theorem pyInt_intCast (n : ℤ) : pyInt (n : ℚ) = n := by
  unfold pyInt
  split
  · exact Int.floor_intCast n
  · exact Int.ceil_intCast n

theorem pyInt_div_two {a : ℤ} (h : 0 ≤ a) : pyInt ((a : ℚ) / 2) = a / 2 := by
  have ha : (0 : ℚ) ≤ (a : ℚ) := by exact_mod_cast h
  rw [pyInt_eq_floor (by positivity),
    show ((2 : ℚ)) = ((2 : ℕ) : ℚ) by norm_num,
    Rat.floor_intCast_div_natCast]
  norm_num

/-! ### Integer characterization of the resize and offset arithmetic -/

theorem centerOffsets_eq (rw rh : Nat) (dispW dispH : Int)
    (hw : dispW ≤ (rw : Int)) (hh : dispH ≤ (rh : Int)) :
    centerOffsets rw rh dispW dispH =
      (((rw : Int) - dispW) / 2, ((rh : Int) - dispH) / 2) := by
  unfold centerOffsets
  rw [show ((rw : ℚ) - (dispW : ℚ)) = (((rw : Int) - dispW : Int) : ℚ) by push_cast; ring,
    show ((rh : ℚ) - (dispH : ℚ)) = (((rh : Int) - dispH : Int) : ℚ) by push_cast; ring,
    pyInt_div_two (by omega), pyInt_div_two (by omega)]

theorem resizeDims_eq (imgW imgH : Nat) (dispW dispH : Int)
    (hW : 0 < imgW) (hH : 0 < imgH) (hTw : 0 ≤ dispW) (hTh : 0 < dispH) :
    resizeDims imgW imgH dispW dispH =
      if (imgW : Int) * dispH < dispW * (imgH : Int) then
        (dispW, dispW * (imgH : Int) / (imgW : Int))
      else
        (dispH * (imgW : Int) / (imgH : Int), dispH) := by
  have hWq : (0 : ℚ) < (imgW : ℚ) := by exact_mod_cast hW
  have hHq : (0 : ℚ) < (imgH : ℚ) := by exact_mod_cast hH
  have hThq : (0 : ℚ) < (dispH : ℚ) := by exact_mod_cast hTh
  have hcond : ((imgW : ℚ) / (imgH : ℚ) < (dispW : ℚ) / (dispH : ℚ)) ↔
      ((imgW : Int) * dispH < dispW * (imgH : Int)) := by
    rw [div_lt_div_iff₀ hHq hThq]
    constructor
    · intro h; exact_mod_cast h
    · intro h; exact_mod_cast h
  unfold resizeDims
  by_cases hc : (imgW : Int) * dispH < dispW * (imgH : Int)
  · rw [if_pos (hcond.mpr hc), if_pos hc]
    have hnum : (0 : ℚ) ≤ ((dispW * (imgH : Int) : Int) : ℚ) := by
      have : (0 : Int) ≤ dispW * (imgH : Int) := mul_nonneg hTw (by positivity)
      exact_mod_cast this
    have hv : (dispW : ℚ) / ((imgW : ℚ) / (imgH : ℚ)) =
        ((dispW * (imgH : Int) : Int) : ℚ) / ((imgW : ℕ) : ℚ) := by
      push_cast
      field_simp
    rw [hv, pyInt_eq_floor (div_nonneg hnum (by positivity)),
      Rat.floor_intCast_div_natCast]
  · rw [if_neg ((not_congr hcond).mpr hc), if_neg hc]
    have hnum : (0 : ℚ) ≤ ((dispH * (imgW : Int) : Int) : ℚ) := by
      have : (0 : Int) ≤ dispH * (imgW : Int) :=
        mul_nonneg (le_of_lt hTh) (by positivity)
      exact_mod_cast this
    have hv : (dispH : ℚ) * ((imgW : ℚ) / (imgH : ℚ)) =
        ((dispH * (imgW : Int) : Int) : ℚ) / ((imgH : ℕ) : ℚ) := by
      push_cast
      field_simp
    rw [hv, pyInt_eq_floor (div_nonneg hnum (by positivity)),
      Rat.floor_intCast_div_natCast]

theorem resize_bounds (imgW imgH : Nat) (dispW dispH : Int)
    (hW : 0 < imgW) (hH : 0 < imgH) (hTw : 0 < dispW) (hTh : 0 < dispH) :
    dispW ≤ (resizeDims imgW imgH dispW dispH).1 ∧
    dispH ≤ (resizeDims imgW imgH dispW dispH).2 ∧
    ((resizeDims imgW imgH dispW dispH).1 = dispW ∨
      (resizeDims imgW imgH dispW dispH).2 = dispH) := by
  rw [resizeDims_eq imgW imgH dispW dispH hW hH (le_of_lt hTw) hTh]
  have hWi : (0 : Int) < (imgW : Int) := by exact_mod_cast hW
  have hHi : (0 : Int) < (imgH : Int) := by exact_mod_cast hH
  by_cases hc : (imgW : Int) * dispH < dispW * (imgH : Int)
  · rw [if_pos hc]
    refine ⟨le_refl _, ?_, Or.inl rfl⟩
    show dispH ≤ dispW * (imgH : Int) / (imgW : Int)
    rw [Int.le_ediv_iff_mul_le hWi]
    have := mul_comm dispH (imgW : Int)
    linarith
  · rw [if_neg hc]
    push_neg at hc
    refine ⟨?_, le_refl _, Or.inr rfl⟩
    show dispW ≤ dispH * (imgW : Int) / (imgH : Int)
    rw [Int.le_ediv_iff_mul_le hHi]
    have := mul_comm dispH (imgW : Int)
    linarith

/-! ### Slicing and shifting stay within bounds -/

theorem sliceBound_of_nonneg_le {n : Nat} {i : Int} (h0 : 0 ≤ i)
    (h1 : i ≤ (n : Int)) : sliceBound n i = i.toNat := by
  unfold sliceBound
  rw [if_neg (by omega)]
  omega

theorem clampShift_bounds (d off : Int) (h : 0 ≤ off) :
    -off ≤ max (min d off) (-off) ∧ max (min d off) (-off) ≤ off :=
  ⟨le_max_right _ _, max_le (min_le_right _ _) (neg_le_self h)⟩

theorem solveShift_bounds (sm : Nat → Nat → Nat) (rw rh : Nat)
    (x0 y0 : Int) (hx : 0 ≤ x0) (hy : 0 ≤ y0) :
    0 ≤ (solveShift sm rw rh x0 y0).1 ∧
    (solveShift sm rw rh x0 y0).1 ≤ 2 * x0 ∧
    0 ≤ (solveShift sm rw rh x0 y0).2 ∧
    (solveShift sm rw rh x0 y0).2 ≤ 2 * y0 := by
  unfold solveShift
  split
  · have h12 := clampShift_bounds
      ((argmaxIdx (convSame (fun y => axisMax (fun x => sm y x) rw) rh)
        (convSameLen rh) : Int) - pyInt ((rh : ℚ) / 2)) y0 hy
    refine ⟨hx, by linarith, ?_, ?_⟩
    · show 0 ≤ y0 + _
      linarith [h12.1]
    · show y0 + _ ≤ 2 * y0
      linarith [h12.2]
  · have h12 := clampShift_bounds
      ((argmaxIdx (convSame (fun x => axisMax (fun y => sm y x) rh) rw)
        (convSameLen rw) : Int) - pyInt ((rw : ℚ) / 2)) x0 hx
    refine ⟨?_, ?_, hy, by linarith⟩
    · show 0 ≤ x0 + _
      linarith [h12.1]
    · show x0 + _ ≤ 2 * x0
      linarith [h12.2]

theorem chosenOffsets_bounds (resized : Image) (dispW dispH : Int)
    (intelligent : Bool) (probe : SalProbe)
    (hw2 : dispW ≤ (resized.w : Int)) (hh2 : dispH ≤ (resized.h : Int)) :
    0 ≤ (chosenOffsets resized dispW dispH intelligent probe).1 ∧
    (chosenOffsets resized dispW dispH intelligent probe).1 + dispW ≤ (resized.w : Int) ∧
    0 ≤ (chosenOffsets resized dispW dispH intelligent probe).2 ∧
    (chosenOffsets resized dispW dispH intelligent probe).2 + dispH ≤ (resized.h : Int) := by
  have hx0 : (0 : Int) ≤ ((resized.w : Int) - dispW) / 2 := by omega
  have hy0 : (0 : Int) ≤ ((resized.h : Int) - dispH) / 2 := by omega
  have hx1 : 2 * (((resized.w : Int) - dispW) / 2) ≤ (resized.w : Int) - dispW := by omega
  have hy1 : 2 * (((resized.h : Int) - dispH) / 2) ≤ (resized.h : Int) - dispH := by omega
  unfold chosenOffsets
  rw [centerOffsets_eq _ _ _ _ hw2 hh2]
  dsimp only
  split
  · split
    · exact ⟨hx0, by omega, hy0, by omega⟩
    · next g heq =>
      have hb := solveShift_bounds (smUint8 g) resized.w resized.h
        (((resized.w : Int) - dispW) / 2) (((resized.h : Int) - dispH) / 2) hx0 hy0
      exact ⟨hb.1, by omega, hb.2.2.1, by omega⟩
  · exact ⟨hx0, by omega, hy0, by omega⟩

theorem cropWindow_exact (resized : Image) (off : Int × Int) (dispW dispH : Int)
    (hw : 0 < dispW) (hh : 0 < dispH)
    (h1 : 0 ≤ off.1) (h2 : off.1 + dispW ≤ (resized.w : Int))
    (h3 : 0 ≤ off.2) (h4 : off.2 + dispH ≤ (resized.h : Int)) :
    cropWindow resized off dispW dispH =
      .ok (npSlice2D resized off.2 (off.2 + dispH) off.1 (off.1 + dispW)) ∧
    (npSlice2D resized off.2 (off.2 + dispH) off.1 (off.1 + dispW)).w = dispW.toNat ∧
    (npSlice2D resized off.2 (off.2 + dispH) off.1 (off.1 + dispW)).h = dispH.toNat := by
  have hws : (npSlice2D resized off.2 (off.2 + dispH) off.1 (off.1 + dispW)).w
      = dispW.toNat := by
    show sliceBound resized.w (off.1 + dispW) - sliceBound resized.w off.1 = dispW.toNat
    rw [sliceBound_of_nonneg_le (by omega) h2, sliceBound_of_nonneg_le h1 (by omega)]
    omega
  have hhs : (npSlice2D resized off.2 (off.2 + dispH) off.1 (off.1 + dispW)).h
      = dispH.toNat := by
    show sliceBound resized.h (off.2 + dispH) - sliceBound resized.h off.2 = dispH.toNat
    rw [sliceBound_of_nonneg_le (by omega) h4, sliceBound_of_nonneg_le h3 (by omega)]
    omega
  refine ⟨?_, hws, hhs⟩
  unfold cropWindow
  rw [if_neg (by rw [hws, hhs]; omega)]

theorem crop_ok (image : Image) (dispW dispH : Int) (intelligent : Bool)
    (probe : SalProbe) (h0 : image.size ≠ 0) (hw : 0 < dispW) (hh : 0 < dispH) :
    crop image dispW dispH intelligent probe =
      .ok (npSlice2D (resizedOf image dispW dispH)
        (chosenOffsets (resizedOf image dispW dispH) dispW dispH intelligent probe).2
        ((chosenOffsets (resizedOf image dispW dispH) dispW dispH intelligent probe).2 + dispH)
        (chosenOffsets (resizedOf image dispW dispH) dispW dispH intelligent probe).1
        ((chosenOffsets (resizedOf image dispW dispH) dispW dispH intelligent probe).1 + dispW)) ∧
    (npSlice2D (resizedOf image dispW dispH)
        (chosenOffsets (resizedOf image dispW dispH) dispW dispH intelligent probe).2
        ((chosenOffsets (resizedOf image dispW dispH) dispW dispH intelligent probe).2 + dispH)
        (chosenOffsets (resizedOf image dispW dispH) dispW dispH intelligent probe).1
        ((chosenOffsets (resizedOf image dispW dispH) dispW dispH intelligent probe).1 + dispW)).w
      = dispW.toNat ∧
    (npSlice2D (resizedOf image dispW dispH)
        (chosenOffsets (resizedOf image dispW dispH) dispW dispH intelligent probe).2
        ((chosenOffsets (resizedOf image dispW dispH) dispW dispH intelligent probe).2 + dispH)
        (chosenOffsets (resizedOf image dispW dispH) dispW dispH intelligent probe).1
        ((chosenOffsets (resizedOf image dispW dispH) dispW dispH intelligent probe).1 + dispW)).h
      = dispH.toNat := by
  have hW : 0 < image.w := by
    rcases Nat.eq_zero_or_pos image.w with h | h
    · exact absurd (by simp [Image.size, h]) h0
    · exact h
  have hH : 0 < image.h := by
    rcases Nat.eq_zero_or_pos image.h with h | h
    · exact absurd (by simp [Image.size, h]) h0
    · exact h
  obtain ⟨hb1, hb2, hor⟩ := resize_bounds image.w image.h dispW dispH hW hH hw hh
  have hrw : (resizedOf image dispW dispH).w
      = (resizeDims image.w image.h dispW dispH).1.toNat := rfl
  have hrh : (resizedOf image dispW dispH).h
      = (resizeDims image.w image.h dispW dispH).2.toNat := rfl
  have hw2 : dispW ≤ ((resizedOf image dispW dispH).w : Int) := by rw [hrw]; omega
  have hh2 : dispH ≤ ((resizedOf image dispW dispH).h : Int) := by rw [hrh]; omega
  have hoff : (centerOffsets (resizedOf image dispW dispH).w
        (resizedOf image dispW dispH).h dispW dispH).1 = 0 ∨
      (centerOffsets (resizedOf image dispW dispH).w
        (resizedOf image dispW dispH).h dispW dispH).2 = 0 := by
    rw [centerOffsets_eq _ _ _ _ hw2 hh2]
    dsimp only
    rw [hrw, hrh]
    omega
  have hguard : ¬((resizeDims image.w image.h dispW dispH).1 ≤ 0 ∨
      (resizeDims image.w image.h dispW dispH).2 ≤ 0) := by omega
  have hcb := chosenOffsets_bounds (resizedOf image dispW dispH) dispW dispH
    intelligent probe hw2 hh2
  have hfin := cropWindow_exact (resizedOf image dispW dispH)
    (chosenOffsets (resizedOf image dispW dispH) dispW dispH intelligent probe)
    dispW dispH hw hh hcb.1 hcb.2.1 hcb.2.2.1 hcb.2.2.2
  refine ⟨?_, hfin.2.1, hfin.2.2⟩
  unfold crop
  rw [if_neg h0, if_neg (by omega : ¬dispH = 0), if_neg hguard,
    if_neg (not_not_intro hoff)]
  exact hfin.1

theorem resized_center_offsets_disj (image : Image) (dispW dispH : Int)
    (h0 : image.size ≠ 0) (hw : 0 < dispW) (hh : 0 < dispH) :
    (centerOffsets (resizedOf image dispW dispH).w
        (resizedOf image dispW dispH).h dispW dispH).1 = 0 ∨
    (centerOffsets (resizedOf image dispW dispH).w
        (resizedOf image dispW dispH).h dispW dispH).2 = 0 := by
  have hW : 0 < image.w := by
    rcases Nat.eq_zero_or_pos image.w with h | h
    · exact absurd (by simp [Image.size, h]) h0
    · exact h
  have hH : 0 < image.h := by
    rcases Nat.eq_zero_or_pos image.h with h | h
    · exact absurd (by simp [Image.size, h]) h0
    · exact h
  obtain ⟨hb1, hb2, hor⟩ := resize_bounds image.w image.h dispW dispH hW hH hw hh
  have hrw : (resizedOf image dispW dispH).w
      = (resizeDims image.w image.h dispW dispH).1.toNat := rfl
  have hrh : (resizedOf image dispW dispH).h
      = (resizeDims image.w image.h dispW dispH).2.toNat := rfl
  have hw2 : dispW ≤ ((resizedOf image dispW dispH).w : Int) := by rw [hrw]; omega
  have hh2 : dispH ≤ ((resizedOf image dispW dispH).h : Int) := by rw [hrh]; omega
  rw [centerOffsets_eq _ _ _ _ hw2 hh2]
  dsimp only
  rw [hrw, hrh]
  omega

/-! ### The claims -/

/-- C1: for every source image with positive width `W` and height `H` and
every positive target `(Tw, Th)`, the covering resize computed by `crop`
yields dimensions `(Rw, Rh)` with `Rw ≥ Tw`, `Rh ≥ Th`, and
`min (Rw − Tw) (Rh − Th) = 0`. -/
theorem resize_covering_bounds (imgW imgH : Nat) (dispW dispH : Int)
    (hW : 0 < imgW) (hH : 0 < imgH) (hTw : 0 < dispW) (hTh : 0 < dispH) :
    dispW ≤ (resizeDims imgW imgH dispW dispH).1 ∧
    dispH ≤ (resizeDims imgW imgH dispW dispH).2 ∧
    min ((resizeDims imgW imgH dispW dispH).1 - dispW)
      ((resizeDims imgW imgH dispW dispH).2 - dispH) = 0 := by
  obtain ⟨h1, h2, h3⟩ := resize_bounds imgW imgH dispW dispH hW hH hTw hTh
  refine ⟨h1, h2, ?_⟩
  rcases h3 with h | h <;> omega

theorem resize_covering_bounds_witness :
    ((0 < 1920 ∧ 0 < 1080 ∧ (0 : Int) < 480 ∧ (0 : Int) < 800) ∧
      (480 ≤ (resizeDims 1920 1080 480 800).1 ∧
        800 ≤ (resizeDims 1920 1080 480 800).2 ∧
        min ((resizeDims 1920 1080 480 800).1 - 480)
          ((resizeDims 1920 1080 480 800).2 - 800) = 0)) :=
  ⟨⟨by norm_num, by norm_num, by norm_num, by norm_num⟩,
    resize_covering_bounds 1920 1080 480 800 (by norm_num) (by norm_num)
      (by norm_num) (by norm_num)⟩

/-- C2: whenever the saliency probe reports failure on the resized image
(`success == False` or a raised exception, both modelled by `none`),
`crop` in intelligent mode returns output identical to `crop` in
center-crop mode on the same input; the failure never propagates. -/
theorem saliency_failure_center_fallback (image : Image) (dispW dispH : Int)
    (probe : SalProbe)
    (hfail : probe (resizedOf image dispW dispH) = none) :
    crop image dispW dispH true probe = crop image dispW dispH false probe := by
  unfold crop chosenOffsets
  rw [hfail]
  rfl

theorem saliency_failure_center_fallback_witness :
    (noProbe (resizedOf sampleImage 1 1) = none) ∧
      crop sampleImage 1 1 true noProbe = crop sampleImage 1 1 false noProbe :=
  ⟨rfl, saliency_failure_center_fallback sampleImage 1 1 noProbe rfl⟩

/-- C3: for every resized image and every possible saliency profile, the
shift applied in intelligent mode is clamped to the interval
`[-offset, +offset]` around the original centred offset on each axis, and
the adjusted crop window `[y, y + Th) x [x, x + Tw)` stays within the
bounds of the resized image. -/
theorem intelligent_shift_clamped_in_bounds (g : SalGrid) (rw rh : Nat)
    (dispW dispH : Int) (hw : 0 < dispW) (hh : 0 < dispH)
    (hw2 : dispW ≤ (rw : Int)) (hh2 : dispH ≤ (rh : Int)) :
    |(solveShift (smUint8 g) rw rh (centerOffsets rw rh dispW dispH).1
          (centerOffsets rw rh dispW dispH).2).1 -
        (centerOffsets rw rh dispW dispH).1| ≤ (centerOffsets rw rh dispW dispH).1 ∧
    |(solveShift (smUint8 g) rw rh (centerOffsets rw rh dispW dispH).1
          (centerOffsets rw rh dispW dispH).2).2 -
        (centerOffsets rw rh dispW dispH).2| ≤ (centerOffsets rw rh dispW dispH).2 ∧
    0 ≤ (solveShift (smUint8 g) rw rh (centerOffsets rw rh dispW dispH).1
        (centerOffsets rw rh dispW dispH).2).1 ∧
    (solveShift (smUint8 g) rw rh (centerOffsets rw rh dispW dispH).1
        (centerOffsets rw rh dispW dispH).2).1 + dispW ≤ (rw : Int) ∧
    0 ≤ (solveShift (smUint8 g) rw rh (centerOffsets rw rh dispW dispH).1
        (centerOffsets rw rh dispW dispH).2).2 ∧
    (solveShift (smUint8 g) rw rh (centerOffsets rw rh dispW dispH).1
        (centerOffsets rw rh dispW dispH).2).2 + dispH ≤ (rh : Int) := by
  rw [centerOffsets_eq rw rh dispW dispH hw2 hh2]
  dsimp only
  have hx0 : (0 : Int) ≤ ((rw : Int) - dispW) / 2 := by omega
  have hy0 : (0 : Int) ≤ ((rh : Int) - dispH) / 2 := by omega
  obtain ⟨b1, b2, b3, b4⟩ := solveShift_bounds (smUint8 g) rw rh
    (((rw : Int) - dispW) / 2) (((rh : Int) - dispH) / 2) hx0 hy0
  exact ⟨abs_le.mpr ⟨by omega, by omega⟩, abs_le.mpr ⟨by omega, by omega⟩,
    b1, by omega, b3, by omega⟩

theorem intelligent_shift_clamped_in_bounds_witness :
    0 ≤ (solveShift (smUint8 (fun _ _ => 0)) 1422 800
        (centerOffsets 1422 800 480 800).1 (centerOffsets 1422 800 480 800).2).1 ∧
    (solveShift (smUint8 (fun _ _ => 0)) 1422 800
        (centerOffsets 1422 800 480 800).1
        (centerOffsets 1422 800 480 800).2).1 + 480 ≤ ((1422 : Nat) : Int) ∧
    0 ≤ (solveShift (smUint8 (fun _ _ => 0)) 1422 800
        (centerOffsets 1422 800 480 800).1 (centerOffsets 1422 800 480 800).2).2 ∧
    (solveShift (smUint8 (fun _ _ => 0)) 1422 800
        (centerOffsets 1422 800 480 800).1
        (centerOffsets 1422 800 480 800).2).2 + 800 ≤ ((800 : Nat) : Int) :=
  (intelligent_shift_clamped_in_bounds (fun _ _ => 0) 1422 800 480 800
    (by norm_num) (by norm_num) (by norm_num) (by norm_num)).2.2

/-- C4: for every valid (nonempty) input image and positive target
`(Tw, Th)`, `crop` with `intelligent = false` returns an image of exactly
`(Tw, Th)` pixels. -/
theorem center_crop_exact_dims (image : Image) (dispW dispH : Int)
    (probe : SalProbe) (h0 : image.size ≠ 0)
    (hw : 0 < dispW) (hh : 0 < dispH) :
    ∃ out, crop image dispW dispH false probe = .ok out ∧
      (out.w : Int) = dispW ∧ (out.h : Int) = dispH := by
  obtain ⟨he, hwd, hhd⟩ := crop_ok image dispW dispH false probe h0 hw hh
  exact ⟨_, he, by rw [hwd]; omega, by rw [hhd]; omega⟩

theorem center_crop_exact_dims_witness :
    sampleImage.size ≠ 0 ∧
      ∃ out, crop sampleImage 480 800 false noProbe = .ok out ∧
        (out.w : Int) = 480 ∧ (out.h : Int) = 800 :=
  ⟨by decide, center_crop_exact_dims sampleImage 480 800 noProbe (by decide)
    (by norm_num) (by norm_num)⟩

/-- C8: the defensive `GeometryFault` branch is unreachable: for every
nonempty source image and positive target dimensions, the offsets computed
on the resized image satisfy `x_off = 0 ∨ y_off = 0`, so `crop` never
returns the `AssertionError`. -/
theorem geometry_fault_unreachable (image : Image) (dispW dispH : Int)
    (intelligent : Bool) (probe : SalProbe) (h0 : image.size ≠ 0)
    (hw : 0 < dispW) (hh : 0 < dispH) :
    ((centerOffsets (resizedOf image dispW dispH).w
        (resizedOf image dispW dispH).h dispW dispH).1 = 0 ∨
      (centerOffsets (resizedOf image dispW dispH).w
        (resizedOf image dispW dispH).h dispW dispH).2 = 0) ∧
    crop image dispW dispH intelligent probe ≠ .error CropErr.assertionError := by
  refine ⟨resized_center_offsets_disj image dispW dispH h0 hw hh, ?_⟩
  rw [(crop_ok image dispW dispH intelligent probe h0 hw hh).1]
  intro h
  exact Except.noConfusion h

theorem geometry_fault_unreachable_witness :
    wideImage.size ≠ 0 ∧
      (((centerOffsets (resizedOf wideImage 480 800).w
          (resizedOf wideImage 480 800).h 480 800).1 = 0 ∨
        (centerOffsets (resizedOf wideImage 480 800).w
          (resizedOf wideImage 480 800).h 480 800).2 = 0) ∧
      crop wideImage 480 800 true noProbe ≠ .error CropErr.assertionError) :=
  ⟨by decide, geometry_fault_unreachable wideImage 480 800 true noProbe
    (by decide) (by norm_num) (by norm_num)⟩

/-- C9: at exact aspect-ratio equality the resize takes the height-bound
"else" branch (the comparison is strict on the source side), producing
`(round(Th * source_aspect), Th)`, which at equality equals `(Tw, Th)`. -/
theorem aspect_tie_takes_else_branch (imgW imgH : Nat) (dispW dispH : Int)
    (hW : 0 < imgW) (hH : 0 < imgH) (hTw : 0 < dispW) (hTh : 0 < dispH)
    (heq : (imgW : ℚ) / (imgH : ℚ) = (dispW : ℚ) / (dispH : ℚ)) :
    ¬ ((imgW : ℚ) / (imgH : ℚ) < (dispW : ℚ) / (dispH : ℚ)) ∧
    resizeDims imgW imgH dispW dispH =
      (round ((dispH : ℚ) * ((imgW : ℚ) / (imgH : ℚ))), dispH) ∧
    resizeDims imgW imgH dispW dispH = (dispW, dispH) := by
  have hnlt : ¬ ((imgW : ℚ) / (imgH : ℚ) < (dispW : ℚ) / (dispH : ℚ)) := by
    rw [heq]; exact lt_irrefl _
  have hThq : ((dispH : Int) : ℚ) ≠ 0 := by
    exact_mod_cast (ne_of_gt hTh)
  have hval : (dispH : ℚ) * ((imgW : ℚ) / (imgH : ℚ)) = ((dispW : Int) : ℚ) := by
    rw [heq, mul_comm, div_mul_cancel₀ _ hThq]
  refine ⟨hnlt, ?_, ?_⟩
  · unfold resizeDims
    rw [if_neg hnlt, hval, pyInt_intCast, round_intCast]
  · unfold resizeDims
    rw [if_neg hnlt, hval, pyInt_intCast]

theorem aspect_tie_takes_else_branch_witness :
    ((960 : ℚ) / (1600 : ℚ) = (480 : ℚ) / (800 : ℚ)) ∧
      (¬ ((960 : ℚ) / (1600 : ℚ) < (480 : ℚ) / (800 : ℚ)) ∧
        resizeDims 960 1600 480 800 =
          (round ((800 : ℚ) * ((960 : ℚ) / (1600 : ℚ))), 800) ∧
        resizeDims 960 1600 480 800 = (480, 800)) :=
  ⟨by norm_num, aspect_tie_takes_else_branch 960 1600 480 800 (by norm_num)
    (by norm_num) (by norm_num) (by norm_num) (by norm_num)⟩

/-- C10: whenever `crop` returns an image, that image has the same channel
count and the same element type as the input image — on the direct-crop
path as well as on the forced-resize fallback path. -/
theorem crop_preserves_channels_dtype (image : Image) (dispW dispH : Int)
    (intelligent : Bool) (probe : SalProbe) (out : Image)
    (h : crop image dispW dispH intelligent probe = .ok out) :
    out.c = image.c ∧ out.dtype = image.dtype := by
  unfold crop at h
  split at h
  · exact Except.noConfusion h
  · split at h
    · exact Except.noConfusion h
    · split at h
      · exact Except.noConfusion h
      · split at h
        · exact Except.noConfusion h
        · unfold cropWindow at h
          split at h
          · split at h
            · exact Except.noConfusion h
            · obtain rfl := (Except.ok.inj h).symm
              exact ⟨rfl, rfl⟩
          · obtain rfl := (Except.ok.inj h).symm
            exact ⟨rfl, rfl⟩

theorem crop_preserves_channels_dtype_witness :
    (npSlice2D (resizedOf sampleImage 1 1)
      (chosenOffsets (resizedOf sampleImage 1 1) 1 1 false noProbe).2
      ((chosenOffsets (resizedOf sampleImage 1 1) 1 1 false noProbe).2 + 1)
      (chosenOffsets (resizedOf sampleImage 1 1) 1 1 false noProbe).1
      ((chosenOffsets (resizedOf sampleImage 1 1) 1 1 false noProbe).1 + 1)).c
        = sampleImage.c ∧
    (npSlice2D (resizedOf sampleImage 1 1)
      (chosenOffsets (resizedOf sampleImage 1 1) 1 1 false noProbe).2
      ((chosenOffsets (resizedOf sampleImage 1 1) 1 1 false noProbe).2 + 1)
      (chosenOffsets (resizedOf sampleImage 1 1) 1 1 false noProbe).1
      ((chosenOffsets (resizedOf sampleImage 1 1) 1 1 false noProbe).1 + 1)).dtype
        = sampleImage.dtype :=
  crop_preserves_channels_dtype sampleImage 1 1 false noProbe _
    (crop_ok sampleImage 1 1 false noProbe (by decide) (by norm_num) (by norm_num)).1

/-- C5 counterexample: at source 4 x 3 and target 5 x 3 the code computes
`int(5 / (4/3)) = int(3.75) = 3`, while round-to-nearest as claimed would
give `round(3.75) = 4`. -/
theorem resize_round_to_nearest_cex :
    resizeDims 4 3 5 3 = (5, 3) ∧ resizeDimsSpec 4 3 5 3 = (5, 4) := by
  constructor
  · rw [resizeDims_eq 4 3 5 3 (by norm_num) (by norm_num) (by norm_num)
      (by norm_num)]
    decide
  · unfold resizeDimsSpec
    rw [if_pos (by norm_num), round_eq]
    norm_num

/-- C5 (amended): the resize dimensions are
`(Tw, int(Tw / source_aspect))` when `source_aspect < target_aspect` and
`(int(Th * source_aspect), Th)` otherwise, where `int` is truncation
toward zero — for positive inputs the floor, not round-to-nearest, of the
real-valued quotient/product. -/
theorem resize_uses_truncation (imgW imgH : Nat) (dispW dispH : Int)
    (hW : 0 < imgW) (hH : 0 < imgH) (hTw : 0 < dispW) (hTh : 0 < dispH) :
    resizeDims imgW imgH dispW dispH =
      if (imgW : ℚ) / (imgH : ℚ) < (dispW : ℚ) / (dispH : ℚ) then
        (dispW, ⌊(dispW : ℚ) / ((imgW : ℚ) / (imgH : ℚ))⌋)
      else
        (⌊(dispH : ℚ) * ((imgW : ℚ) / (imgH : ℚ))⌋, dispH) := by
  have hTwq : (0 : ℚ) ≤ (dispW : ℚ) := by exact_mod_cast le_of_lt hTw
  have hThq : (0 : ℚ) ≤ (dispH : ℚ) := by exact_mod_cast le_of_lt hTh
  unfold resizeDims
  split
  · rw [pyInt_eq_floor (div_nonneg hTwq (div_nonneg (by positivity) (by positivity)))]
  · rw [pyInt_eq_floor (mul_nonneg hThq (div_nonneg (by positivity) (by positivity)))]

theorem resize_uses_truncation_witness :
    resizeDims 4 3 5 3 =
      if (4 : ℚ) / (3 : ℚ) < (5 : ℚ) / (3 : ℚ) then
        (5, ⌊(5 : ℚ) / ((4 : ℚ) / (3 : ℚ))⌋)
      else
        (⌊(3 : ℚ) * ((4 : ℚ) / (3 : ℚ))⌋, 3) :=
  resize_uses_truncation 4 3 5 3 (by norm_num) (by norm_num) (by norm_num)
    (by norm_num)

/-- C6 counterexample: with source 480 x 800 and target 480 x 800
(Scenario B of the specification) the resize is the identity and both
offsets are zero, so it is false that exactly one of `x_off`, `y_off` is
zero. -/
theorem offsets_exactly_one_zero_cex :
    resizeDims 480 800 480 800 = (480, 800) ∧
    centerOffsets 480 800 480 800 = (0, 0) ∧
    ¬ Xor' ((centerOffsets 480 800 480 800).1 = 0)
      ((centerOffsets 480 800 480 800).2 = 0) := by
  have h1 : resizeDims 480 800 480 800 = (480, 800) := by
    rw [resizeDims_eq 480 800 480 800 (by norm_num) (by norm_num) (by norm_num)
      (by norm_num)]
    decide
  have h2 : centerOffsets 480 800 480 800 = (0, 0) := by
    rw [centerOffsets_eq 480 800 480 800 (by norm_num) (by norm_num)]
    decide
  refine ⟨h1, h2, ?_⟩
  rw [h2]
  simp [Xor']

/-- C6 (amended): after the covering resize, at least one of the centred
offsets is zero — the offset of an axis that matches the target is zero —
and each offset equals the floor of half the difference between resized
and target size on its axis; when source and target agree exactly, both
offsets are zero. -/
theorem offsets_matching_axis_zero (imgW imgH : Nat) (dispW dispH : Int)
    (hW : 0 < imgW) (hH : 0 < imgH) (hTw : 0 < dispW) (hTh : 0 < dispH) :
    ((centerOffsets (resizeDims imgW imgH dispW dispH).1.toNat
        (resizeDims imgW imgH dispW dispH).2.toNat dispW dispH).1 = 0 ∨
      (centerOffsets (resizeDims imgW imgH dispW dispH).1.toNat
        (resizeDims imgW imgH dispW dispH).2.toNat dispW dispH).2 = 0) ∧
    (centerOffsets (resizeDims imgW imgH dispW dispH).1.toNat
        (resizeDims imgW imgH dispW dispH).2.toNat dispW dispH).1 =
      ((resizeDims imgW imgH dispW dispH).1 - dispW) / 2 ∧
    (centerOffsets (resizeDims imgW imgH dispW dispH).1.toNat
        (resizeDims imgW imgH dispW dispH).2.toNat dispW dispH).2 =
      ((resizeDims imgW imgH dispW dispH).2 - dispH) / 2 ∧
    ((resizeDims imgW imgH dispW dispH).1 = dispW →
      (centerOffsets (resizeDims imgW imgH dispW dispH).1.toNat
        (resizeDims imgW imgH dispW dispH).2.toNat dispW dispH).1 = 0) ∧
    ((resizeDims imgW imgH dispW dispH).2 = dispH →
      (centerOffsets (resizeDims imgW imgH dispW dispH).1.toNat
        (resizeDims imgW imgH dispW dispH).2.toNat dispW dispH).2 = 0) := by
  obtain ⟨hb1, hb2, hor⟩ := resize_bounds imgW imgH dispW dispH hW hH hTw hTh
  rw [centerOffsets_eq _ _ _ _ (by omega) (by omega)]
  dsimp only
  refine ⟨by omega, by omega, by omega, fun h => by omega, fun h => by omega⟩

theorem offsets_matching_axis_zero_witness :
    ((centerOffsets (resizeDims 1920 1080 480 800).1.toNat
        (resizeDims 1920 1080 480 800).2.toNat 480 800).1 = 0 ∨
      (centerOffsets (resizeDims 1920 1080 480 800).1.toNat
        (resizeDims 1920 1080 480 800).2.toNat 480 800).2 = 0) ∧
    (centerOffsets (resizeDims 1920 1080 480 800).1.toNat
        (resizeDims 1920 1080 480 800).2.toNat 480 800).1 =
      ((resizeDims 1920 1080 480 800).1 - 480) / 2 ∧
    (centerOffsets (resizeDims 1920 1080 480 800).1.toNat
        (resizeDims 1920 1080 480 800).2.toNat 480 800).2 =
      ((resizeDims 1920 1080 480 800).2 - 800) / 2 ∧
    ((resizeDims 1920 1080 480 800).1 = 480 →
      (centerOffsets (resizeDims 1920 1080 480 800).1.toNat
        (resizeDims 1920 1080 480 800).2.toNat 480 800).1 = 0) ∧
    ((resizeDims 1920 1080 480 800).2 = 800 →
      (centerOffsets (resizeDims 1920 1080 480 800).1.toNat
        (resizeDims 1920 1080 480 800).2.toNat 480 800).2 = 0) :=
  offsets_matching_axis_zero 1920 1080 480 800 (by norm_num) (by norm_num)
    (by norm_num) (by norm_num)

/-- C7 counterexample: with a valid 1 x 1 source image and target width 0
(an input dimension ≤ 0), `crop` does not fail at all: it returns
successfully (an empty-width slice that happens to match the degenerate
target), so non-positive target dimensions are not rejected. -/
theorem target_dims_unvalidated_cex :
    (0 : Int) ≤ 0 ∧ ∃ out, crop sampleImage 0 800 false noProbe = Except.ok out := by
  refine ⟨le_rfl, ?_⟩
  have hr : resizeDims sampleImage.w sampleImage.h 0 800 = (800, 800) := by
    rw [show sampleImage.w = 1 from rfl, show sampleImage.h = 1 from rfl,
      resizeDims_eq 1 1 0 800 one_pos one_pos le_rfl (by norm_num)]
    decide
  have hrow : (resizedOf sampleImage 0 800).w = 800 := by
    show (resizeDims sampleImage.w sampleImage.h 0 800).1.toNat = 800
    rw [hr]
    rfl
  have hroh : (resizedOf sampleImage 0 800).h = 800 := by
    show (resizeDims sampleImage.w sampleImage.h 0 800).2.toNat = 800
    rw [hr]
    rfl
  have hco : centerOffsets (resizedOf sampleImage 0 800).w
      (resizedOf sampleImage 0 800).h 0 800 = (400, 0) := by
    rw [hrow, hroh, centerOffsets_eq 800 800 0 800 (by norm_num) (by norm_num)]
    decide
  have hch : chosenOffsets (resizedOf sampleImage 0 800) 0 800 false noProbe
      = centerOffsets (resizedOf sampleImage 0 800).w
        (resizedOf sampleImage 0 800).h 0 800 := rfl
  unfold crop
  rw [if_neg (by decide : ¬(sampleImage.size = 0)),
    if_neg (by decide : ¬((800 : Int) = 0)),
    if_neg (by rw [hr]; decide), if_neg (by rw [hco]; decide), hch, hco]
  have hcw : (npSlice2D (resizedOf sampleImage 0 800)
      ((400, (0 : Int)).2) ((400, (0 : Int)).2 + 800)
      ((400, (0 : Int)).1) ((400, (0 : Int)).1 + 0)).w = 0 := by
    show sliceBound (resizedOf sampleImage 0 800).w (400 + 0)
        - sliceBound (resizedOf sampleImage 0 800).w 400 = 0
    rw [hrow]
    decide
  have hchh : (npSlice2D (resizedOf sampleImage 0 800)
      ((400, (0 : Int)).2) ((400, (0 : Int)).2 + 800)
      ((400, (0 : Int)).1) ((400, (0 : Int)).1 + 0)).h = 800 := by
    show sliceBound (resizedOf sampleImage 0 800).h (0 + 800)
        - sliceBound (resizedOf sampleImage 0 800).h 0 = 800
    rw [hroh]
    decide
  unfold cropWindow
  rw [if_neg (by rw [hcw, hchh]; decide)]
  exact ⟨_, rfl⟩

/-- C7 (amended): `crop` validates only the source image: it fails with the
invalid-image error exactly when the source image is empty (zero area).
Non-positive target dimensions are not checked up front: depending on the
values, `crop` can return successfully or raise a different error. -/
theorem crop_invalid_image_iff (image : Image) (dispW dispH : Int)
    (intelligent : Bool) (probe : SalProbe) :
    crop image dispW dispH intelligent probe = .error CropErr.invalidImage ↔
      image.size = 0 := by
  constructor
  · intro h
    by_contra hne
    unfold crop at h
    rw [if_neg hne] at h
    split at h
    · exact CropErr.noConfusion (Except.error.inj h)
    · split at h
      · exact CropErr.noConfusion (Except.error.inj h)
      · split at h
        · exact CropErr.noConfusion (Except.error.inj h)
        · unfold cropWindow at h
          split at h
          · split at h
            · exact CropErr.noConfusion (Except.error.inj h)
            · exact Except.noConfusion h
          · exact Except.noConfusion h
  · intro h
    unfold crop
    rw [if_pos h]
